import Mathlib

/-!
A verification development for the Spotify identifier module
(`rspotify-model/src/idtypes.rs`): validation, URI parsing, rendering,
borrowed/owned duality and widening conversions.

Strings are embedded as `List Char`; Rust's `Result` becomes `Except`.
-/

namespace RSpotify

/-- Modelled from the spec: the Kind Registry's tag set (`crate::Type`), whose
definition is not under `src/` — only its users in `idtypes.rs`.  Per §3/§4.1
of the spec it is a closed tag set naming the 7 concrete resource categories
plus one wildcard `Unknown` tag. -/
inductive SpotifyType where
  | Artist
  | Album
  | Track
  | Playlist
  | User
  | Show
  | Episode
  | Unknown
deriving DecidableEq, Repr

/-- Modelled from the spec: the Kind Registry's render-to-text direction
(`Display` of `crate::Type`), §4.1: "render-to-text (canonical lowercase
name, used when building URIs)"; the wildcard's internal name is the one the
in-src tests use in URIs (`spotify:unknown:...`). -/
def SpotifyType.render : SpotifyType → List Char
  | .Artist => "artist".data
  | .Album => "album".data
  | .Track => "track".data
  | .Playlist => "playlist".data
  | .User => "user".data
  | .Show => "show".data
  | .Episode => "episode".data
  | .Unknown => "unknown".data

/-- Modelled from the spec: the Kind Registry's parse-from-text direction
(`FromStr` of `crate::Type`), §4.1.  It recognizes the 7 canonical lowercase
names; the wildcard's name is also recognized, as pinned by the in-src test
`test_unknown` (`AnyId::from_uri("spotify:unknown:...")` succeeds while
`AnyId::from_uri("spotify:something:...")` fails with `InvalidType`). -/
def parseType (s : List Char) : Option SpotifyType :=
  if s = "artist".data then some .Artist
  else if s = "album".data then some .Album
  else if s = "track".data then some .Track
  else if s = "playlist".data then some .Playlist
  else if s = "user".data then some .User
  else if s = "show".data then some .Show
  else if s = "episode".data then some .Episode
  else if s = "unknown".data then some .Unknown
  else none

/-- Modelled from the spec: the kind comparison `tpe == Self::TYPE` used in
`from_uri` step (4) (`PartialEq` of `crate::Type`, not under `src/`): "fail
with `InvalidType` if it is not a recognized name, or if it is recognized but
does not equal the caller's target kind (group kinds accept any recognized
name)" — so a wildcard `Unknown` target accepts every recognized kind, while a
concrete target accepts only its own tag.  This is pinned by the in-src tests:
`AnyId::from_uri("spotify:track:...")` succeeds and
`TrackId::from_uri("spotify:unknown:...")` fails with `InvalidType`. -/
def typeMatches (parsed target : SpotifyType) : Bool :=
  target == .Unknown || parsed == target

/-- `IdError` from `idtypes.rs` (lines 92–104). -/
inductive IdError where
  | InvalidPrefix
  | InvalidFormat
  | InvalidType
  | InvalidId
deriving DecidableEq, Repr

/-- The ten identifier families produced by `define_idtypes!`
(`idtypes.rs` lines 376–390): seven concrete kinds and three group kinds. -/
inductive IdFamily where
  | ArtistId
  | AlbumId
  | TrackId
  | PlaylistId
  | UserId
  | ShowId
  | EpisodeId
  | AnyId
  | PlayContextId
  | PlayableId
deriving DecidableEq, Repr

/-- `Id::TYPE`: the kind tag attached to each family by `define_idtypes!`
(the three group families are tagged `Unknown`). -/
def IdFamily.TYPE : IdFamily → SpotifyType
  | .ArtistId => .Artist
  | .AlbumId => .Album
  | .TrackId => .Track
  | .PlaylistId => .Playlist
  | .UserId => .User
  | .ShowId => .Show
  | .EpisodeId => .Episode
  | .AnyId => .Unknown
  | .PlayContextId => .Unknown
  | .PlayableId => .Unknown

/-- A borrowed identifier value: the wrapped character data of
`struct $name_borrowed(str)` together with its family (which in Rust lives at
the type level). -/
structure SpotId where
  fam : IdFamily
  data : List Char
deriving DecidableEq, Repr

/-- `Id::id` (line 111 / 254): returns the wrapped character sequence. -/
def SpotId.id (x : SpotId) : List Char := x.data

/-- `Id::from_id_unchecked` (line 119 / 248): reinterpret a character
sequence as an identifier of family `F` without checking. -/
def from_id_unchecked (F : IdFamily) (s : List Char) : SpotId := ⟨F, s⟩

/-- Rust's `char::is_ascii_alphanumeric`: `'A'..='Z' | 'a'..='z' | '0'..='9'`. -/
def is_ascii_alphanumeric (c : Char) : Bool :=
  ('A' ≤ c && c ≤ 'Z') || ('a' ≤ c && c ≤ 'z') || ('0' ≤ c && c ≤ '9')

/-- `Id::from_id` (lines 178–185): accept iff every character is ASCII
alphanumeric, otherwise `InvalidId`. -/
def from_id (F : IdFamily) (s : List Char) : Except IdError SpotId :=
  if s.all is_ascii_alphanumeric then .ok (from_id_unchecked F s)
  else .error .InvalidId

/-- `Id::uri` (lines 125–127): `format!("spotify:{}:{}", Self::TYPE, self.id())`. -/
def SpotId.uri (x : SpotId) : List Char :=
  "spotify:".data ++ x.fam.TYPE.render ++ ":".data ++ x.id

/-- `Id::url` (lines 133–135). -/
def SpotId.url (x : SpotId) : List Char :=
  "https://open.spotify.com/".data ++ x.fam.TYPE.render ++ "/".data ++ x.id

/-- Rust `str::strip_prefix` on character lists. -/
def stripPre : List Char → List Char → Option (List Char)
  | [], s => some s
  | _ :: _, [] => none
  | p :: ps, c :: cs => if c = p then stripPre ps cs else none

/-- Rust `str::rfind(char)` on character lists: index of the last occurrence. -/
def rfind (sep : Char) : List Char → Option Nat
  | [] => none
  | c :: cs =>
    match rfind sep cs with
    | some i => some (i + 1)
    | none => if c = sep then some 0 else none

/-- `Id::from_uri` (lines 206–226): strip `"spotify"`, read the separator
(`:` or `/`), split at the last occurrence of that separator into kind and id
segments, check the kind against `Self::TYPE`, then validate the id segment
with `from_id`. -/
def from_uri (F : IdFamily) (u : List Char) : Except IdError SpotId :=
  match stripPre "spotify".data u with
  | none => .error .InvalidPrefix
  | some afterPre =>
    match afterPre with
    | [] => .error .InvalidPrefix
    | sep :: rest =>
      if sep = '/' ∨ sep = ':' then
        match rfind sep rest with
        | none => .error .InvalidFormat
        | some mid =>
          let tpe := rest.take mid
          let idPart := rest.drop mid
          match parseType tpe with
          | some t =>
            if typeMatches t F.TYPE then from_id F (idPart.drop 1)
            else .error .InvalidType
          | none => .error .InvalidType
      else .error .InvalidPrefix

/-- `Id::from_id_or_uri` (lines 163–169): try `from_uri`; fall back to
`from_id` exactly on `InvalidPrefix`; propagate every other error. -/
def from_id_or_uri (F : IdFamily) (s : List Char) : Except IdError SpotId :=
  match from_uri F s with
  | .ok x => .ok x
  | .error .InvalidPrefix => from_id F s
  | .error e => .error e

/-- `Display::fmt` (lines 283–292): group kinds (tag `Unknown`) render the
bare id, concrete kinds render the full URI. -/
def SpotId.display (x : SpotId) : List Char :=
  match x.fam.TYPE with
  | .Unknown => x.id
  | _ => x.uri

/-- An owned identifier buffer: `struct $name_owned(String)` with its family. -/
structure SpotIdBuf where
  fam : IdFamily
  data : List Char
deriving DecidableEq, Repr

/-- `ToOwned::to_owned` (lines 294–300): copy the characters into an owned
buffer of the same family. -/
def SpotId.to_owned (x : SpotId) : SpotIdBuf := ⟨x.fam, x.id⟩

/-- `AsRef<$name_borrowed> for $name_owned` (lines 323–330): view the owned
buffer as a borrowed identifier via `from_id_unchecked`. -/
def SpotIdBuf.as_ref (b : SpotIdBuf) : SpotId := from_id_unchecked b.fam b.data

/-- A widening conversion (`define_one_way_conversions!` lines 361–374 and
`AsRef<AnyId>` lines 259–266): reinterpret the same character data under the
target family via `from_id_unchecked(self.id())`. -/
def widen (target : IdFamily) (x : SpotId) : SpotId :=
  from_id_unchecked target x.id

/-- Which `AsRef` widening impls exist: every family converts to `AnyId`
(lines 259–266); `ArtistId`, `AlbumId`, `PlaylistId`, `ShowId` convert to
`PlayContextId` and `TrackId`, `EpisodeId` to `PlayableId` (lines 393–400). -/
def allowedWiden (src target : IdFamily) : Bool :=
  target == .AnyId
    || (target == .PlayContextId &&
        (src == .ArtistId || src == .AlbumId || src == .PlaylistId || src == .ShowId))
    || (target == .PlayableId && (src == .TrackId || src == .EpisodeId))

/-- A concrete (non-wildcard) kind tag. -/
def SpotifyType.isConcrete (t : SpotifyType) : Bool := t != .Unknown

/-- A group family: one whose tag is the wildcard `Unknown`. -/
def IdFamily.isGroup (F : IdFamily) : Bool := F.TYPE == .Unknown

/-! ### Helper lemmas -/

theorem from_id_ok_iff {F : IdFamily} {s : List Char} {x : SpotId} :
    from_id F s = .ok x ↔ (s.all is_ascii_alphanumeric = true ∧ x = ⟨F, s⟩) := by
  unfold from_id from_id_unchecked
  split
  · constructor
    · intro h
      cases h
      exact ⟨by assumption, rfl⟩
    · rintro ⟨-, rfl⟩
      rfl
  · constructor
    · intro h
      cases h
    · rintro ⟨h, -⟩
      simp_all

theorem from_id_error_iff {F : IdFamily} {s : List Char} {e : IdError} :
    from_id F s = .error e ↔ (s.all is_ascii_alphanumeric = false ∧ e = .InvalidId) := by
  unfold from_id
  split
  · constructor
    · intro h
      cases h
    · rintro ⟨h, -⟩
      simp_all
  · constructor
    · intro h
      cases h
      exact ⟨by simp_all, rfl⟩
    · rintro ⟨-, rfl⟩
      rfl

theorem alnum_ne_colon {c : Char} (h : is_ascii_alphanumeric c = true) : c ≠ ':' := by
  rintro rfl
  exact absurd h (by decide)

theorem alnum_ne_slash {c : Char} (h : is_ascii_alphanumeric c = true) : c ≠ '/' := by
  rintro rfl
  exact absurd h (by decide)

theorem stripPre_append (p s : List Char) : stripPre p (p ++ s) = some s := by
  induction p with
  | nil => rfl
  | cons c cs ih => simp [stripPre, ih]

theorem rfind_eq_none {sep : Char} {l : List Char} (h : ∀ c ∈ l, c ≠ sep) :
    rfind sep l = none := by
  induction l with
  | nil => rfl
  | cons c cs ih =>
    have hc : c ≠ sep := h c (List.mem_cons_self c cs)
    have := ih (fun d hd => h d (List.mem_cons_of_mem c hd))
    simp [rfind, this, hc]

theorem rfind_append_last {sep : Char} (l1 : List Char) {l2 : List Char}
    (h : ∀ c ∈ l2, c ≠ sep) :
    rfind sep (l1 ++ sep :: l2) = some l1.length := by
  induction l1 with
  | nil => simp [rfind, rfind_eq_none h]
  | cons c cs ih => simp [rfind, ih]

theorem typeMatches_refl (t : SpotifyType) : typeMatches t t = true := by
  cases t <;> rfl

theorem typeMatches_unknown (t : SpotifyType) : typeMatches t .Unknown = true := rfl

theorem parseType_render (t : SpotifyType) : parseType t.render = some t := by
  cases t <;> rfl

theorem render_no_sep (t : SpotifyType) : ∀ c ∈ t.render, c ≠ ':' ∧ c ≠ '/' := by
  cases t <;> decide

/-- The concatenation shape of a two-segment URI, re-associated so that the
`"spotify"` prefix, the separator and the two segments are explicit. -/
theorem uri_concat_colon (k i : List Char) :
    "spotify:".data ++ k ++ ":".data ++ i = "spotify".data ++ ':' :: (k ++ ':' :: i) := by
  show ("spotify".data ++ [':']) ++ k ++ [':'] ++ i = _
  simp [List.append_assoc]

theorem uri_concat_slash (k i : List Char) :
    "spotify/".data ++ k ++ "/".data ++ i = "spotify".data ++ '/' :: (k ++ '/' :: i) := by
  show ("spotify".data ++ ['/']) ++ k ++ ['/'] ++ i = _
  simp [List.append_assoc]

/-- Evaluation of `from_uri` on input of the shape
`"spotify" ++ sep ++ kind ++ sep ++ id` when the id segment avoids the
separator: the split succeeds at the last separator and only the kind check
and id validation remain. -/
theorem from_uri_split (F : IdFamily) {sep : Char} (k i : List Char)
    (hsep : sep = '/' ∨ sep = ':') (hi : ∀ c ∈ i, c ≠ sep) :
    from_uri F ("spotify".data ++ sep :: (k ++ sep :: i)) =
      match parseType k with
      | some t => if typeMatches t F.TYPE then from_id F i else .error .InvalidType
      | none => .error .InvalidType := by
  unfold from_uri
  rw [stripPre_append]
  simp only []
  rw [if_pos hsep, rfind_append_last k hi]
  simp only [List.take_left, List.drop_left, List.drop_succ_cons, List.drop_zero]

/-- Evaluation of `from_uri` when, past the separator, the separator never
occurs again: the split fails with `InvalidFormat`. -/
theorem from_uri_no_second_sep (F : IdFamily) {sep : Char} {rest : List Char}
    (hsep : sep = '/' ∨ sep = ':') (h : ∀ c ∈ rest, c ≠ sep) :
    from_uri F ("spotify".data ++ sep :: rest) = .error .InvalidFormat := by
  unfold from_uri
  rw [stripPre_append]
  simp only []
  rw [if_pos hsep, rfind_eq_none h]

/-- Inversion for `from_uri`: a successful parse produced its identifier via
`from_id`, so the family is the caller's and the data is alphanumeric. -/
theorem from_uri_ok_inv {F : IdFamily} {u : List Char} {x : SpotId}
    (h : from_uri F u = .ok x) :
    x.fam = F ∧ x.data.all is_ascii_alphanumeric = true := by
  unfold from_uri at h
  dsimp only at h
  split at h
  · cases h
  · split at h
    · cases h
    · split at h
      · split at h
        · cases h
        · split at h
          · split at h
            · obtain ⟨ha, rfl⟩ := from_id_ok_iff.mp h
              exact ⟨rfl, ha⟩
            · cases h
          · cases h
      · cases h

/-- Inversion for `from_id_or_uri`: both the URI path and the bare-id path
produce an identifier of the caller's family with alphanumeric data. -/
theorem from_id_or_uri_ok_inv {F : IdFamily} {s : List Char} {x : SpotId}
    (h : from_id_or_uri F s = .ok x) :
    x.fam = F ∧ x.data.all is_ascii_alphanumeric = true := by
  unfold from_id_or_uri at h
  split at h
  · cases h
    exact from_uri_ok_inv (by assumption)
  · obtain ⟨ha, rfl⟩ := from_id_ok_iff.mp h
    exact ⟨rfl, ha⟩
  · cases h

/-- Any identifier with alphanumeric data parses back from its own URI,
against its own family. -/
theorem from_uri_of_uri {x : SpotId} (h : x.data.all is_ascii_alphanumeric = true) :
    from_uri x.fam x.uri = .ok x := by
  have hi : ∀ c ∈ x.data, c ≠ ':' :=
    fun c hc => alnum_ne_colon (List.all_eq_true.mp h c hc)
  rw [show x.uri = "spotify".data ++ ':' :: (x.fam.TYPE.render ++ ':' :: x.data) from
    uri_concat_colon _ _]
  rw [from_uri_split x.fam _ _ (Or.inr rfl) hi]
  rw [parseType_render]
  simp only [typeMatches_refl, if_true]
  exact from_id_ok_iff.mpr ⟨h, rfl⟩

/-! ### Claim theorems -/

/-- C1: for every input text `t`, `from_id t` succeeds with an identifier
whose `id()` equals `t` exactly when every character of `t` is ASCII
alphanumeric; if `t` contains at least one character outside ASCII
alphanumeric, `from_id t` fails with `InvalidId`. -/
theorem from_id_alphanumeric_iff (F : IdFamily) (t : List Char) :
    ((∃ x, from_id F t = .ok x ∧ x.id = t) ↔ ∀ c ∈ t, is_ascii_alphanumeric c = true)
    ∧ ((∃ c ∈ t, is_ascii_alphanumeric c = false) → from_id F t = .error .InvalidId) := by
  constructor
  · constructor
    · rintro ⟨x, hx, -⟩
      exact fun c hc => List.all_eq_true.mp (from_id_ok_iff.mp hx).1 c hc
    · intro h
      exact ⟨⟨F, t⟩, from_id_ok_iff.mpr ⟨List.all_eq_true.mpr h, rfl⟩, rfl⟩
  · rintro ⟨c, hc, hval⟩
    refine from_id_error_iff.mpr ⟨?_, rfl⟩
    exact List.all_eq_false.mpr ⟨c, hc, by simp [hval]⟩

/-- C2: round trip — any identifier `x` successfully parsed for target
family `F` re-parses from its rendered URI to an equal identifier (same kind
tag, same `id()`): `from_uri F x.uri = .ok x`. -/
theorem from_uri_uri_roundtrip (F : IdFamily) (s : List Char) (x : SpotId)
    (h : from_id_or_uri F s = .ok x) : from_uri F x.uri = .ok x := by
  obtain ⟨hf, ha⟩ := from_id_or_uri_ok_inv h
  have hr := from_uri_of_uri (x := x) ha
  rwa [hf] at hr

/-- Witness for C2 at the track id of the in-src tests. -/
theorem from_uri_uri_roundtrip_witness :
    from_uri .TrackId (SpotId.uri ⟨.TrackId, "4iV5W9uYEdYUVa79Axb7Rh".data⟩)
      = .ok ⟨.TrackId, "4iV5W9uYEdYUVa79Axb7Rh".data⟩ :=
  from_uri_uri_roundtrip .TrackId "4iV5W9uYEdYUVa79Axb7Rh".data
    ⟨.TrackId, "4iV5W9uYEdYUVa79Axb7Rh".data⟩ rfl

/-- C4 (code evaluation at the failing input): `from_id` on the empty string
succeeds with an empty identifier — the all-characters check is vacuously
true — although the code's own doc comments say a valid id is non-empty and
that `InvalidId` covers the empty case. -/
theorem from_id_empty_ok (F : IdFamily) : from_id F [] = .ok ⟨F, []⟩ := rfl

/-- C9: borrowed/owned round trip — converting a borrowed identifier to the
owned buffer (`to_owned`, copying the characters) and viewing it back as a
borrowed view (`as_ref`) yields an identifier equal to `x`: same family tag
and identical character sequence from `id()`. -/
theorem to_owned_as_ref_roundtrip (x : SpotId) :
    x.to_owned.as_ref = x ∧ x.to_owned.as_ref.fam = x.fam ∧ x.to_owned.as_ref.id = x.id :=
  ⟨rfl, rfl, rfl⟩

/-- C10: `Display` depends on the kind tag — the three group families
(tagged `Unknown`) render the bare `id()`, while the seven concrete families
render the full URI `spotify:{kind}:{id}`. -/
theorem display_depends_on_kind (x : SpotId) :
    (x.fam.isGroup = true → x.display = x.id)
    ∧ (x.fam.isGroup = false → x.display = x.uri) := by
  obtain ⟨F, d⟩ := x
  cases F <;>
    refine ⟨fun h => ?_, fun h => ?_⟩ <;>
    first | rfl | simp [IdFamily.isGroup, IdFamily.TYPE] at h

theorem mixed_concat_slash_colon (k i : List Char) :
    "spotify/".data ++ k ++ ":".data ++ i = "spotify".data ++ '/' :: (k ++ ':' :: i) := by
  show ("spotify".data ++ ['/']) ++ k ++ [':'] ++ i = _
  simp [List.append_assoc]

theorem mixed_concat_colon_slash (k i : List Char) :
    "spotify:".data ++ k ++ "/".data ++ i = "spotify".data ++ ':' :: (k ++ '/' :: i) := by
  show ("spotify".data ++ [':']) ++ k ++ ['/'] ++ i = _
  simp [List.append_assoc]

theorem group_TYPE_unknown {F : IdFamily} (hF : F.isGroup = true) : F.TYPE = .Unknown := by
  cases F <;> revert hF <;> decide

/-- C3: for every recognized concrete kind name and every valid id `i`,
`from_uri` on `"spotify:" ++ name ++ ":" ++ i` with a group target family
(`AnyId`, `PlayContextId` or `PlayableId`) succeeds with `id() = i`: the kind
check of step (4) accepts any recognized kind name when the target is a
group kind. -/
theorem group_from_uri_any_concrete_kind (K : SpotifyType) (F : IdFamily) (i : List Char)
    (_hK : K.isConcrete = true) (hF : F.isGroup = true)
    (hi : i.all is_ascii_alphanumeric = true) :
    from_uri F ("spotify:".data ++ K.render ++ ":".data ++ i) = .ok ⟨F, i⟩ ∧
    (⟨F, i⟩ : SpotId).id = i := by
  have hcol : ∀ c ∈ i, c ≠ ':' := fun c hc => alnum_ne_colon (List.all_eq_true.mp hi c hc)
  refine ⟨?_, rfl⟩
  rw [uri_concat_colon, from_uri_split F _ _ (Or.inr rfl) hcol, parseType_render,
    group_TYPE_unknown hF]
  simp only [typeMatches_unknown, if_true]
  exact from_id_ok_iff.mpr ⟨hi, rfl⟩

/-- Witness for C3: the track kind name against the `PlayableId` group. -/
theorem group_from_uri_any_concrete_kind_witness :
    from_uri .PlayableId
        ("spotify:".data ++ SpotifyType.Track.render ++ ":".data ++ "4iV5W9uYEdYUVa79Axb7Rh".data)
      = .ok ⟨.PlayableId, "4iV5W9uYEdYUVa79Axb7Rh".data⟩ ∧
    (⟨.PlayableId, "4iV5W9uYEdYUVa79Axb7Rh".data⟩ : SpotId).id = "4iV5W9uYEdYUVa79Axb7Rh".data :=
  group_from_uri_any_concrete_kind .Track .PlayableId "4iV5W9uYEdYUVa79Axb7Rh".data
    (by decide) (by decide) (by decide)

/-- C5: `from_uri` accepts exactly the two spellings and requires a
consistent separator — for a valid id `i` and a concrete kind `K` against a
target family of kind `K`, both `spotify:{K}:{i}` and `spotify/{K}/{i}`
succeed with `id() = i`, while the two mixed-separator spellings fail with
`InvalidFormat`. -/
theorem from_uri_two_spellings (K : SpotifyType) (F : IdFamily) (i : List Char)
    (_hK : K.isConcrete = true) (hF : F.TYPE = K)
    (hi : i.all is_ascii_alphanumeric = true) :
    from_uri F ("spotify:".data ++ K.render ++ ":".data ++ i) = .ok ⟨F, i⟩ ∧
    from_uri F ("spotify/".data ++ K.render ++ "/".data ++ i) = .ok ⟨F, i⟩ ∧
    from_uri F ("spotify/".data ++ K.render ++ ":".data ++ i) = .error .InvalidFormat ∧
    from_uri F ("spotify:".data ++ K.render ++ "/".data ++ i) = .error .InvalidFormat := by
  have hcol : ∀ c ∈ i, c ≠ ':' := fun c hc => alnum_ne_colon (List.all_eq_true.mp hi c hc)
  have hsla : ∀ c ∈ i, c ≠ '/' := fun c hc => alnum_ne_slash (List.all_eq_true.mp hi c hc)
  refine ⟨?_, ?_, ?_, ?_⟩
  · rw [uri_concat_colon, from_uri_split F _ _ (Or.inr rfl) hcol, parseType_render, hF]
    simp only [typeMatches_refl, if_true]
    exact from_id_ok_iff.mpr ⟨hi, rfl⟩
  · rw [uri_concat_slash, from_uri_split F _ _ (Or.inl rfl) hsla, parseType_render, hF]
    simp only [typeMatches_refl, if_true]
    exact from_id_ok_iff.mpr ⟨hi, rfl⟩
  · rw [mixed_concat_slash_colon]
    refine from_uri_no_second_sep F (Or.inl rfl) ?_
    intro c hc
    rcases List.mem_append.mp hc with hc | hc
    · exact (render_no_sep K c hc).2
    · rcases List.mem_cons.mp hc with rfl | hc
      · decide
      · exact hsla c hc
  · rw [mixed_concat_colon_slash]
    refine from_uri_no_second_sep F (Or.inr rfl) ?_
    intro c hc
    rcases List.mem_append.mp hc with hc | hc
    · exact (render_no_sep K c hc).1
    · rcases List.mem_cons.mp hc with rfl | hc
      · decide
      · exact hcol c hc

/-- Witness for C5: the track kind against `TrackId`, at the id of the
in-src tests. -/
theorem from_uri_two_spellings_witness :
    from_uri .TrackId
        ("spotify:".data ++ SpotifyType.Track.render ++ ":".data ++ "4iV5W9uYEdYUVa79Axb7Rh".data)
      = .ok ⟨.TrackId, "4iV5W9uYEdYUVa79Axb7Rh".data⟩ ∧
    from_uri .TrackId
        ("spotify/".data ++ SpotifyType.Track.render ++ "/".data ++ "4iV5W9uYEdYUVa79Axb7Rh".data)
      = .ok ⟨.TrackId, "4iV5W9uYEdYUVa79Axb7Rh".data⟩ ∧
    from_uri .TrackId
        ("spotify/".data ++ SpotifyType.Track.render ++ ":".data ++ "4iV5W9uYEdYUVa79Axb7Rh".data)
      = .error .InvalidFormat ∧
    from_uri .TrackId
        ("spotify:".data ++ SpotifyType.Track.render ++ "/".data ++ "4iV5W9uYEdYUVa79Axb7Rh".data)
      = .error .InvalidFormat :=
  from_uri_two_spellings .Track .TrackId "4iV5W9uYEdYUVa79Axb7Rh".data
    (by decide) (by decide) (by decide)

/-- C6: on `"spotify:unknown:4iV5W9uYEdYUVa79Axb7Rh"`, `from_uri` fails with
`InvalidType` for every concrete target family, and succeeds for the
wildcard group family `AnyId`. -/
theorem unknown_uri_kind_check :
    (∀ F : IdFamily, F.isGroup = false →
      from_uri F "spotify:unknown:4iV5W9uYEdYUVa79Axb7Rh".data = .error .InvalidType)
    ∧ from_uri .AnyId "spotify:unknown:4iV5W9uYEdYUVa79Axb7Rh".data
        = .ok ⟨.AnyId, "4iV5W9uYEdYUVa79Axb7Rh".data⟩ := by
  refine ⟨fun F hF => ?_, rfl⟩
  cases F <;> first | rfl | simp [IdFamily.isGroup, IdFamily.TYPE] at hF

/-- C7: `from_id_or_uri` tries `from_uri` first; it falls back to `from_id`
exactly on `InvalidPrefix`, returns every other `from_uri` error unchanged,
and passes a `from_uri` success through; consequently a bare alphanumeric id
succeeds, and the well-formed track URI succeeds with the same id value as
its bare form. -/
theorem from_id_or_uri_fallback (F : IdFamily) (t : List Char) :
    (from_uri F t = .error .InvalidPrefix → from_id_or_uri F t = from_id F t)
    ∧ (∀ e, e ≠ .InvalidPrefix → from_uri F t = .error e → from_id_or_uri F t = .error e)
    ∧ (∀ x, from_uri F t = .ok x → from_id_or_uri F t = .ok x)
    ∧ from_id_or_uri .TrackId "4iV5W9uYEdYUVa79Axb7Rh".data
        = .ok ⟨.TrackId, "4iV5W9uYEdYUVa79Axb7Rh".data⟩
    ∧ from_id_or_uri .TrackId "spotify:track:4iV5W9uYEdYUVa79Axb7Rh".data
        = .ok ⟨.TrackId, "4iV5W9uYEdYUVa79Axb7Rh".data⟩ := by
  refine ⟨?_, ?_, ?_, rfl, rfl⟩
  · intro h
    unfold from_id_or_uri
    rw [h]
  · intro e he h
    unfold from_id_or_uri
    rw [h]
    cases e
    · exact absurd rfl he
    · rfl
    · rfl
    · rfl
  · intro x h
    unfold from_id_or_uri
    rw [h]

/-- C8: every widening conversion that exists (to `AnyId` from any family;
to `PlayContextId` from artist, album, playlist, show; to `PlayableId` from
track, episode) is total — `widen` has no error case — and preserves the
character data of `id()` exactly; widening a track identifier to
`PlayableId` and on to `AnyId` keeps `id()` and changes only the kind name
rendered in `uri()` (from `track` to the wildcard's name). -/
theorem widening_preserves_id (src target : IdFamily) (x : SpotId)
    (hA : allowedWiden src target = true) (hx : x.fam = src) :
    ((widen target x).fam = target ∧ (widen target x).id = x.id)
    ∧ (src = .TrackId →
        (widen .AnyId (widen .PlayableId x)).id = x.id
        ∧ (widen .PlayableId x).uri
            = "spotify:".data ++ SpotifyType.Unknown.render ++ ":".data ++ x.id
        ∧ (widen .AnyId (widen .PlayableId x)).uri
            = "spotify:".data ++ SpotifyType.Unknown.render ++ ":".data ++ x.id
        ∧ x.uri = "spotify:".data ++ SpotifyType.Track.render ++ ":".data ++ x.id) := by
  refine ⟨⟨rfl, rfl⟩, ?_⟩
  rintro rfl
  refine ⟨rfl, rfl, rfl, ?_⟩
  show "spotify:".data ++ x.fam.TYPE.render ++ ":".data ++ x.id = _
  rw [hx]
  rfl

/-- Witness for C8: widening a concrete track identifier to `PlayableId`. -/
theorem widening_preserves_id_witness :
    ((widen .PlayableId ⟨.TrackId, "abc123".data⟩).fam = .PlayableId
      ∧ (widen .PlayableId ⟨.TrackId, "abc123".data⟩).id
          = (⟨.TrackId, "abc123".data⟩ : SpotId).id)
    ∧ (IdFamily.TrackId = .TrackId →
        (widen .AnyId (widen .PlayableId ⟨.TrackId, "abc123".data⟩)).id
            = (⟨.TrackId, "abc123".data⟩ : SpotId).id
        ∧ (widen .PlayableId ⟨.TrackId, "abc123".data⟩).uri
            = "spotify:".data ++ SpotifyType.Unknown.render ++ ":".data
                ++ (⟨.TrackId, "abc123".data⟩ : SpotId).id
        ∧ (widen .AnyId (widen .PlayableId ⟨.TrackId, "abc123".data⟩)).uri
            = "spotify:".data ++ SpotifyType.Unknown.render ++ ":".data
                ++ (⟨.TrackId, "abc123".data⟩ : SpotId).id
        ∧ (⟨.TrackId, "abc123".data⟩ : SpotId).uri
            = "spotify:".data ++ SpotifyType.Track.render ++ ":".data
                ++ (⟨.TrackId, "abc123".data⟩ : SpotId).id) :=
  widening_preserves_id .TrackId .PlayableId ⟨.TrackId, "abc123".data⟩ (by decide) rfl

end RSpotify
